import Mathlib

/-!
Verification of the nvm-desktop core (src-tauri/src/core/project.rs and
src-tauri/src/cmds.rs) against its natural-language specification.

The Rust code is shallowly embedded: the filesystem is a record of existing
project directories plus the contents of each project's `.nvmdrc` marker file;
async operations are sequentialized (each marker write touches only its own
key, so the final filesystem does not depend on the interleaving); fallible
operations return `Except Err`; time is measured in milliseconds as `Nat`.
-/

/-- Errors surfaced by the embedded operations: a missing project in the
Project domain, a missing group in the Group domain, or an I/O failure when
writing a marker file (carrying the project path). -/
inductive Err where
  | notFound (name : String)
  | groupNotFound (name : String)
  | ioError (path : String)
deriving DecidableEq, Repr

/-- Filesystem model: `dirs` is the set of existing project directories;
`markers p` is the contents of `p/.nvmdrc` (`none` when the file is absent).
Paths are identified with the project directory, so a marker write at key `p`
models writing the file `p/.nvmdrc`. -/
structure FS where
  dirs : List String
  markers : String → Option String

/-- `path.exists()` on a project directory. -/
def FS.dirExists (fs : FS) (p : String) : Bool :=
  fs.dirs.contains p

/-- Contents of the marker file `p/.nvmdrc`, as read back from disk. -/
def FS.readMarker (fs : FS) (p : String) : Option String :=
  fs.markers p

/-- Overwrite-whole-file semantics of writing `p/.nvmdrc`: the new contents
replace any previous contents entirely. -/
def setMarkerFS (fs : FS) (p v : String) : FS :=
  { fs with markers := fun q => if q = p then some v else fs.markers q }

/-- `help::save_string(&path.join(".nvmdrc"), version)`: writes the marker
file of project directory `p`. The write fails with an I/O error when the
project directory does not exist (no parent to create the file in), and
otherwise replaces the file's contents with `v`. -/
def save_string (fs : FS) (p v : String) : Except Err FS :=
  if fs.dirExists p then Except.ok (setMarkerFS fs p v)
  else Except.error (Err.ioError p)

/-- `sync_project_version(path, version)` from project.rs: returns `Ok 404`
without writing when the project directory does not exist, otherwise writes
`version` to the marker file and returns `Ok 200`. -/
def sync_project_version (fs : FS) (path version : String) : Except Err (FS × Int) :=
  if !fs.dirExists path then Except.ok (fs, 404)
  else
    match save_string fs path version with
    | Except.error e => Except.error e
    | Except.ok fs1 => Except.ok (fs1, 200)

/-- The per-path writes of `batch_update_project_version`: each path is mapped
to `save_string` at `path/.nvmdrc` (the batch, unlike `sync_project_version`,
performs no existence check), every write is attempted regardless of earlier
failures, and the per-path results are collected. `buffer_unordered(3)` is
sequentialized in input order: each write touches only its own marker key, so
the final filesystem is interleaving-independent, and the model fixes input
order as the collection order. -/
def collectWrites (fs : FS) (version : String) : List String → FS × List (Except Err Unit)
  | [] => (fs, [])
  | p :: ps =>
      match save_string fs p version with
      | Except.ok fs1 =>
          let r := collectWrites fs1 version ps
          (r.1, Except.ok () :: r.2)
      | Except.error e =>
          let r := collectWrites fs version ps
          (r.1, Except.error e :: r.2)

/-- The final `for ret in result { ret?; }` loop: returns the first error in
the collected results, or `Ok` when every write succeeded. -/
def firstError : List (Except Err Unit) → Except Err Unit
  | [] => Except.ok ()
  | Except.ok () :: rs => firstError rs
  | Except.error e :: _ => Except.error e

/-- `batch_update_project_version(paths, version)` from project.rs: runs all
per-path marker writes to completion, then propagates the first failure. -/
def batch_update_project_version (fs : FS) (paths : List String) (version : String) :
    FS × Except Err Unit :=
  let r := collectWrites fs version paths
  (r.1, firstError r.2)

/-- A marker write does not change which directories exist. -/
theorem setMarkerFS_dirExists (fs : FS) (p v q : String) :
    (setMarkerFS fs p v).dirExists q = fs.dirExists q := rfl

/-- A marker write at `p` leaves every other project's marker unchanged. -/
theorem setMarkerFS_readMarker_ne (fs : FS) (p v q : String) (h : q ≠ p) :
    (setMarkerFS fs p v).readMarker q = fs.readMarker q := by
  simp [setMarkerFS, FS.readMarker, h]

/-- After a marker write at `p` the marker of `p` is exactly the new value. -/
theorem setMarkerFS_readMarker_self (fs : FS) (p v : String) :
    (setMarkerFS fs p v).readMarker p = some v := by
  simp [setMarkerFS, FS.readMarker]

/-- The collected per-path results depend only on which directories exist:
path `p` yields `Ok` when its directory exists and the I/O error otherwise. -/
theorem collectWrites_results (version : String) :
    ∀ (paths : List String) (fs : FS),
      (collectWrites fs version paths).2 =
        paths.map (fun p =>
          if fs.dirExists p then Except.ok () else Except.error (Err.ioError p)) := by
  intro paths
  induction paths with
  | nil => intro fs; simp [collectWrites]
  | cons p ps ih =>
      intro fs
      by_cases hp : fs.dirExists p
      · simp [collectWrites, save_string, hp, ih, setMarkerFS_dirExists]
      · simp [collectWrites, save_string, hp, ih]

/-- A marker already holding `version` still holds it after any batch of
writes of the same `version` (later writes either overwrite it with the same
value or touch other projects). -/
theorem collectWrites_preserves_marker (version : String) :
    ∀ (paths : List String) (fs : FS) (p : String),
      fs.readMarker p = some version →
      (collectWrites fs version paths).1.readMarker p = some version := by
  intro paths
  induction paths with
  | nil => intro fs p h; simpa [collectWrites] using h
  | cons q ps ih =>
      intro fs p h
      by_cases hq : fs.dirExists q
      · simp only [collectWrites, save_string, hq, if_true]
        apply ih
        by_cases hpq : p = q
        · subst hpq; exact setMarkerFS_readMarker_self fs p version
        · rw [setMarkerFS_readMarker_ne fs q version p hpq]; exact h
      · simp only [collectWrites, save_string, hq, if_false]
        exact ih fs p h

/-- Every path of the batch whose directory exists ends up with its marker
equal to the requested version, regardless of what happens at other paths. -/
theorem collectWrites_writes_marker (version : String) :
    ∀ (paths : List String) (fs : FS) (p : String),
      p ∈ paths → fs.dirExists p = true →
      (collectWrites fs version paths).1.readMarker p = some version := by
  intro paths
  induction paths with
  | nil => intro fs p hmem; exact absurd hmem (List.not_mem_nil p)
  | cons q ps ih =>
      intro fs p hmem hp
      rcases List.mem_cons.mp hmem with hpq | hmem'
      · subst hpq
        simp only [collectWrites, save_string, hp, if_true]
        exact collectWrites_preserves_marker version ps (setMarkerFS fs p version) p
          (setMarkerFS_readMarker_self fs p version)
      · by_cases hq : fs.dirExists q
        · simp only [collectWrites, save_string, hq, if_true]
          exact ih (setMarkerFS fs q version) p hmem' hp
        · simp only [collectWrites, save_string, hq, if_false]
          exact ih fs p hmem' hp

/-- The result loop returns `Ok` exactly when every directory existed. -/
theorem firstError_map_ok_iff (fs : FS) :
    ∀ (l : List String),
      firstError (l.map fun p =>
          if fs.dirExists p then Except.ok () else Except.error (Err.ioError p)) =
        Except.ok () ↔
      ∀ p ∈ l, fs.dirExists p = true := by
  intro l
  induction l with
  | nil => simp [firstError]
  | cons p ps ih =>
      by_cases hp : fs.dirExists p
      · simp [firstError, hp, ih]
      · simp [firstError, hp]

/-- The result loop surfaces the I/O error of the first path whose
directory is missing. -/
theorem firstError_map_first_err (fs : FS) :
    ∀ (l : List String) (q : String),
      l.find? (fun p => !fs.dirExists p) = some q →
      firstError (l.map fun p =>
          if fs.dirExists p then Except.ok () else Except.error (Err.ioError p)) =
        Except.error (Err.ioError q) := by
  intro l
  induction l with
  | nil => intro q h; simp [List.find?] at h
  | cons p ps ih =>
      intro q h
      by_cases hp : fs.dirExists p
      · rw [List.find?_cons_of_neg] at h
        · simp only [List.map_cons, hp, if_true, firstError]
          exact ih q h
        · simp [hp]
      · rw [List.find?_cons_of_pos] at h
        · cases h
          simp only [List.map_cons, hp, if_false, firstError]
        · simp [hp]

/-- C6: `sync_project_version` returns 404 and performs no filesystem write
when the project directory does not exist (an `Ok` result, not an error); when
the directory exists it writes the version string as the entire contents of
the `.nvmdrc` marker file (overwriting any previous, possibly longer,
contents and leaving other projects' markers untouched) and returns 200. -/
theorem c6_sync_project_version_spec (fs : FS) (path version : String) :
    (fs.dirExists path = false →
        sync_project_version fs path version = Except.ok (fs, 404)) ∧
    (fs.dirExists path = true →
        sync_project_version fs path version =
          Except.ok (setMarkerFS fs path version, 200) ∧
        (setMarkerFS fs path version).readMarker path = some version ∧
        ∀ q, q ≠ path →
          (setMarkerFS fs path version).readMarker q = fs.readMarker q) := by
  constructor
  · intro h
    simp [sync_project_version, h]
  · intro h
    refine ⟨?_, setMarkerFS_readMarker_self fs path version, ?_⟩
    · simp [sync_project_version, save_string, h]
    · intro q hq
      exact setMarkerFS_readMarker_ne fs path version q hq

/-- Concrete filesystem for the C6 witness: directory `proj` exists and its
marker holds a longer previous version string. -/
def fsC6 : FS :=
  { dirs := ["proj"], markers := fun q => if q = "proj" then some "16.20.2-old" else none }

/-- C6 witness: on `fsC6` the write succeeds with 200 and the marker contains
exactly the new version string, with no residue of the longer old contents. -/
theorem c6_sync_project_version_spec_witness :
    sync_project_version fsC6 "proj" "18.0" =
      Except.ok (setMarkerFS fsC6 "proj" "18.0", 200) ∧
    (setMarkerFS fsC6 "proj" "18.0").readMarker "proj" = some "18.0" ∧
    sync_project_version fsC6 "missing" "18.0" = Except.ok (fsC6, 404) :=
  ⟨((c6_sync_project_version_spec fsC6 "proj" "18.0").2 (by decide)).1,
   ((c6_sync_project_version_spec fsC6 "proj" "18.0").2 (by decide)).2.1,
   (c6_sync_project_version_spec fsC6 "missing" "18.0").1 (by decide)⟩

/-- C4: the batch runs every per-path write to completion and only then
decides the result: it returns `Ok` exactly when every write succeeded, it
surfaces the I/O error of the first failing path in the collected order, and
on partial failure the successful paths' markers remain written. -/
theorem c4_batch_collects_all_then_first_failure (fs : FS) (paths : List String)
    (version : String) :
    ((batch_update_project_version fs paths version).2 = Except.ok () ↔
        ∀ p ∈ paths, fs.dirExists p = true) ∧
    (∀ p ∈ paths, fs.dirExists p = true →
        (batch_update_project_version fs paths version).1.readMarker p = some version) ∧
    (∀ q, paths.find? (fun p => !fs.dirExists p) = some q →
        (batch_update_project_version fs paths version).2 =
          Except.error (Err.ioError q)) := by
  refine ⟨?_, ?_, ?_⟩
  · rw [show (batch_update_project_version fs paths version).2 =
        firstError (collectWrites fs version paths).2 from rfl,
      collectWrites_results version paths fs]
    exact firstError_map_ok_iff fs paths
  · intro p hmem hp
    exact collectWrites_writes_marker version paths fs p hmem hp
  · intro q hq
    rw [show (batch_update_project_version fs paths version).2 =
        firstError (collectWrites fs version paths).2 from rfl,
      collectWrites_results version paths fs]
    exact firstError_map_first_err fs paths q hq

/-- Concrete filesystem for the C4 witness: directories `a` and `c` exist,
`b` does not, so the middle write of the batch fails. -/
def fsC4 : FS := { dirs := ["a", "c"], markers := fun _ => none }

/-- C4 witness: on `fsC4` the batch over `[a, b, c]` reports the failure of
`b` (the first failing path) while the markers of `a` and `c` are written. -/
theorem c4_batch_collects_all_then_first_failure_witness :
    (batch_update_project_version fsC4 ["a", "b", "c"] "20.1").2 =
      Except.error (Err.ioError "b") ∧
    (batch_update_project_version fsC4 ["a", "b", "c"] "20.1").1.readMarker "a" =
      some "20.1" ∧
    (batch_update_project_version fsC4 ["a", "b", "c"] "20.1").1.readMarker "c" =
      some "20.1" :=
  ⟨(c4_batch_collects_all_then_first_failure fsC4 ["a", "b", "c"] "20.1").2.2 "b" (by decide),
   (c4_batch_collects_all_then_first_failure fsC4 ["a", "b", "c"] "20.1").2.1 "a"
     (by decide) (by decide),
   (c4_batch_collects_all_then_first_failure fsC4 ["a", "b", "c"] "20.1").2.1 "c"
     (by decide) (by decide)⟩

/-- Applying `sync_project_version(path, version)` to each path in order,
threading the filesystem; an error (unreachable in the model, since the write
is only attempted when the directory exists) leaves the filesystem unchanged
and continues with the remaining paths. -/
def syncEach (version : String) : FS → List String → FS
  | fs, [] => fs
  | fs, p :: ps =>
      match sync_project_version fs p version with
      | Except.ok r => syncEach version r.1 ps
      | Except.error _ => syncEach version fs ps

/-- Empty filesystem for the C3 counterexample: no project directory exists. -/
def fsC3 : FS := { dirs := [], markers := fun _ => none }

/-- C3 counterexample: on a path whose project directory does not exist, the
batch fails with an I/O error (it performs no existence check), whereas
`sync_project_version` on the same path returns the soft `Ok 404` without
writing — so the per-path outcome of the batch does not coincide with that of
`sync_project_version`. -/
theorem c3_batch_vs_sync_counterexample :
    (batch_update_project_version fsC3 ["proj"] "18.0").2 =
      Except.error (Err.ioError "proj") ∧
    sync_project_version fsC3 "proj" "18.0" = Except.ok (fsC3, 404) :=
  ⟨rfl, rfl⟩

/-- C3 amended: for every list of paths whose project directories all exist,
the batch performs per path exactly the write `sync_project_version` performs
— the final filesystems coincide — and the batch succeeds; the batch however
omits the existence check of `sync_project_version`, so a path with a missing
directory makes the batch fail instead of yielding the soft 404. -/
theorem c3_amended_batch_refines_sync_on_existing_dirs (version : String) :
    ∀ (paths : List String) (fs : FS),
      (∀ p ∈ paths, fs.dirExists p = true) →
      (batch_update_project_version fs paths version).1 = syncEach version fs paths ∧
      (batch_update_project_version fs paths version).2 = Except.ok () := by
  intro paths
  induction paths with
  | nil => intro fs _; exact ⟨rfl, rfl⟩
  | cons p ps ih =>
      intro fs h
      have hp : fs.dirExists p = true := h p (List.mem_cons_self p ps)
      have hps : ∀ q ∈ ps, (setMarkerFS fs p version).dirExists q = true := by
        intro q hq
        rw [setMarkerFS_dirExists]
        exact h q (List.mem_cons_of_mem p hq)
      obtain ⟨ih1, ih2⟩ := ih (setMarkerFS fs p version) hps
      constructor
      · show (collectWrites fs version (p :: ps)).1 = syncEach version fs (p :: ps)
        simp only [collectWrites, save_string, hp, if_true, syncEach,
          sync_project_version, Bool.not_true]
        exact ih1
      · show firstError (collectWrites fs version (p :: ps)).2 = Except.ok ()
        simp only [collectWrites, save_string, hp, if_true, firstError]
        exact ih2

/-- Filesystem for the C3 amended-claim witness: both directories exist. -/
def fsC3w : FS := { dirs := ["x", "y"], markers := fun _ => none }

/-- C3 amended witness: with both directories present, the batch result
equals the fold of `sync_project_version` over the paths and succeeds. -/
theorem c3_amended_batch_refines_sync_witness :
    (batch_update_project_version fsC3w ["x", "y"] "1.0").1 =
      syncEach "1.0" fsC3w ["x", "y"] ∧
    (batch_update_project_version fsC3w ["x", "y"] "1.0").2 = Except.ok () :=
  c3_amended_batch_refines_sync_on_existing_dirs "1.0" ["x", "y"] fsC3w (by decide)

/-- Payload of a progress tick / emitted notification from cmds.rs:
`{source, transferred, total}`. -/
structure ProgressData where
  source : String
  transferred : Nat
  total : Nat
deriving DecidableEq, Repr

/-- One invocation of the `on_progress` closure of `install_node`: given the
shared `last_emit_time` (milliseconds) and the current instant `now`, emit the
tick and update `last_emit_time` to `now` when at least 300 ms have elapsed,
otherwise drop the tick and leave the state unchanged. `now - last` is
truncated `Nat` subtraction, matching the saturating `Instant::duration_since`
of a monotonic clock. -/
def on_progress (last_emit_time now : Nat) (d : ProgressData) :
    Nat × Option ProgressData :=
  if 300 ≤ now - last_emit_time then (now, some d) else (last_emit_time, none)

/-- Running the throttle over a sequence of timestamped ticks, starting from
`last_emit_time` (initialized by `install_node` to `Instant::now()` at the
moment the closure is created); returns the emitted notifications with their
emission instants. -/
def run_throttle (last_emit_time : Nat) :
    List (Nat × ProgressData) → List (Nat × ProgressData)
  | [] => []
  | (now, d) :: rest =>
      match on_progress last_emit_time now d with
      | (l, some e) => (now, e) :: run_throttle l rest
      | (l, none) => run_throttle l rest

/-- The first emission of a run happens at least 300 ms after the initial
`last_emit_time`. -/
theorem run_throttle_head_ge (l : Nat) :
    ∀ (ticks : List (Nat × ProgressData)) (x : Nat × ProgressData),
      (run_throttle l ticks).head? = some x → l + 300 ≤ x.1 := by
  intro ticks
  induction ticks generalizing l with
  | nil => intro x h; simp [run_throttle] at h
  | cons td rest ih =>
      intro x h
      obtain ⟨now, d⟩ := td
      by_cases hg : 300 ≤ now - l
      · simp only [run_throttle, on_progress, hg, if_true, List.head?] at h
        cases h
        omega
      · simp only [run_throttle, on_progress, hg, if_false] at h
        exact ih l x h

/-- Emitted ticks form a subsequence of the input ticks: the throttle passes
tick data through unchanged and only drops ticks. -/
theorem run_throttle_sublist (l : Nat) :
    ∀ (ticks : List (Nat × ProgressData)),
      (run_throttle l ticks).Sublist ticks := by
  intro ticks
  induction ticks generalizing l with
  | nil => simp [run_throttle]
  | cons td rest ih =>
      obtain ⟨now, d⟩ := td
      by_cases hg : 300 ≤ now - l
      · simp only [run_throttle, on_progress, hg, if_true]
        exact List.Sublist.cons₂ (now, d) (ih now)
      · simp only [run_throttle, on_progress, hg, if_false]
        exact List.Sublist.cons (now, d) (ih l)

/-- C7: a tick is emitted exactly when at least 300 ms have elapsed since the
last-emitted timestamp at the moment it is processed, in which case the
last-emitted timestamp becomes that moment; a dropped tick leaves the state
unchanged and emits nothing; consequently any two consecutive emissions of a
run are at least 300 ms apart. -/
theorem c7_throttle_gate :
    (∀ (l now : Nat) (d : ProgressData),
        ((on_progress l now d).2 = some d ↔ 300 ≤ now - l) ∧
        (300 ≤ now - l → on_progress l now d = (now, some d)) ∧
        (now - l < 300 → on_progress l now d = (l, none))) ∧
    (∀ (l : Nat) (ticks : List (Nat × ProgressData)),
        List.Chain' (fun a b => a.1 + 300 ≤ b.1) (run_throttle l ticks)) := by
  constructor
  · intro l now d
    refine ⟨⟨?_, ?_⟩, ?_, ?_⟩
    · intro h
      by_contra hg
      simp [on_progress, hg] at h
    · intro h
      simp [on_progress, h]
    · intro h
      simp [on_progress, h]
    · intro h
      simp [on_progress, Nat.not_le.mpr h]
  · intro l ticks
    induction ticks generalizing l with
    | nil => simp [run_throttle]
    | cons td rest ih =>
        obtain ⟨now, d⟩ := td
        by_cases hg : 300 ≤ now - l
        · simp only [run_throttle, on_progress, hg, if_true]
          rw [List.chain'_cons']
          refine ⟨?_, ih now⟩
          intro b hb
          exact run_throttle_head_ge now rest b hb
        · simp only [run_throttle, on_progress, hg, if_false]
          exact ih l

/-- C7 witness: at 300 ms elapsed the tick is emitted and the timestamp
updated; at 100 ms elapsed the tick is dropped with the state unchanged. -/
theorem c7_throttle_gate_witness :
    on_progress 0 300 ⟨"node", 40, 500⟩ = (300, some ⟨"node", 40, 500⟩) ∧
    on_progress 300 400 ⟨"node", 50, 500⟩ = (300, none) :=
  ⟨(c7_throttle_gate.1 0 300 ⟨"node", 40, 500⟩).2.1 (by decide),
   (c7_throttle_gate.1 300 400 ⟨"node", 50, 500⟩).2.2 (by decide)⟩

/-- The tick sequence of the C5 scenario: ticks at t = 0, 100, 200, 300, 400
ms after the throttle's creation (the throttle is created at t = 0, so its
initial `last_emit_time` is 0), with monotonically increasing `transferred`. -/
def ticksC5 : List (Nat × ProgressData) :=
  [(0, ⟨"node", 10, 500⟩), (100, ⟨"node", 20, 500⟩), (200, ⟨"node", 30, 500⟩),
   (300, ⟨"node", 40, 500⟩), (400, ⟨"node", 50, 500⟩)]

/-- C5 counterexample: on the t = 0,100,200,300,400 scenario the throttle
emits only the tick at t = 300 — not the ticks at t = 0 and t = 300 — because
`last_emit_time` is initialized to the creation instant, so the t = 0 tick
arrives with 0 ms elapsed and is dropped by the 300 ms gate. -/
theorem c5_two_emissions_counterexample :
    (run_throttle 0 ticksC5).map Prod.fst = [300] ∧
    (run_throttle 0 ticksC5).map Prod.fst ≠ [0, 300] := by
  constructor
  · rfl
  · decide

/-- C5 amended: on the t = 0,100,200,300,400 scenario exactly one tick is
emitted, the one at t = 300 (with its `transferred` value passed through);
the t = 0 tick is dropped because the gate's `last_emit_time` starts at the
throttle's creation instant. -/
theorem c5_amended_single_emission_at_300 :
    run_throttle 0 ticksC5 = [(300, ⟨"node", 40, 500⟩)] := rfl

/-- Decreasing tick sequence for the C8 counterexample: both ticks clear the
300 ms gate, but `transferred` decreases from 10 to 5. -/
def ticksC8 : List (Nat × ProgressData) :=
  [(300, ⟨"node", 10, 500⟩), (600, ⟨"node", 5, 500⟩)]

/-- C8 counterexample: the throttle passes tick values through unmodified, so
with input ticks whose `transferred` decreases both ticks are emitted and the
emitted sequence for source `node` is 10 followed by 5 — not monotonically
non-decreasing. The claimed guarantee does not hold unconditionally. -/
theorem c8_monotone_counterexample :
    (run_throttle 0 ticksC8).map (fun p => p.2.transferred) = [10, 5] ∧
    ¬ List.Pairwise (fun a b => a ≤ b)
        ((run_throttle 0 ticksC8).map (fun p => p.2.transferred)) := by
  constructor
  · rfl
  · decide

/-- C8 amended: whenever the input ticks of a source are monotonically
non-decreasing in `transferred`, so are the emitted notifications of that
source — the emitted sequence is a subsequence of the input with values
passed through unchanged. -/
theorem c8_amended_monotone_of_monotone_input (l : Nat)
    (ticks : List (Nat × ProgressData)) (src : String)
    (h : List.Pairwise (fun a b => a.2.transferred ≤ b.2.transferred)
      (ticks.filter (fun p => p.2.source == src))) :
    List.Pairwise (fun a b => a.2.transferred ≤ b.2.transferred)
      ((run_throttle l ticks).filter (fun p => p.2.source == src)) :=
  h.sublist ((run_throttle_sublist l ticks).filter (fun p => p.2.source == src))

/-- Monotone tick sequence for the C8 amended-claim witness. -/
def ticksC8w : List (Nat × ProgressData) :=
  [(300, ⟨"node", 10, 500⟩), (450, ⟨"node", 20, 500⟩), (600, ⟨"node", 30, 500⟩)]

/-- C8 amended witness: on a monotone input sequence the emitted
notifications of source `node` are monotone in `transferred`. -/
theorem c8_amended_monotone_witness :
    List.Pairwise (fun a b => a.2.transferred ≤ b.2.transferred)
      ((run_throttle 0 ticksC8w).filter (fun p => p.2.source == "node")) :=
  c8_amended_monotone_of_monotone_input 0 ticksC8w "node" (by decide)

/-- Modelled from the spec: the generic `ConfigStore<T>` draft/commit/rollback
wrapper (spec §4.1) — its implementation (the `Config` accessors with
`latest`/`data`/`apply`/`discard`) is not under src/. `persisted` is the last
durable snapshot and `working` the mutable draft. -/
structure ConfigStore (α : Type) where
  persisted : α
  working : α
deriving DecidableEq, Repr

/-- `apply()`: copy the working draft into the persisted snapshot. -/
def ConfigStore.commit {α : Type} (s : ConfigStore α) : ConfigStore α :=
  { s with persisted := s.working }

/-- `discard()`: reset the working draft to the persisted snapshot, undoing
uncommitted mutations. -/
def ConfigStore.discard {α : Type} (s : ConfigStore α) : ConfigStore α :=
  { s with working := s.persisted }

/-- A project registry entry: identifier, filesystem path and assigned
version (an explicit version string or a group name). -/
structure Project where
  name : String
  path : String
  version : String
deriving DecidableEq, Repr

/-- A group registry entry: unique name, version, and the paths of the member
projects. -/
structure GroupInfo where
  name : String
  version : String
  projects : List String
deriving DecidableEq, Repr

/-- Modelled from the spec: Project Domain `update_version(name, version)`
(spec §4.2) — the implementation lives in the config module, not under src/.
Looks up the project by `name` (failing with `none` when absent), sets its
assigned version on the working draft, and returns the updated draft together
with the project's filesystem path. -/
def update_version (ps : List Project) (name version : String) :
    Option (List Project × String) :=
  match ps.find? (fun p => p.name == name) with
  | none => none
  | some p =>
      some (ps.map (fun q => if q.name == name then { q with version := version } else q),
        p.path)

/-- Modelled from the spec: Group Domain `update_projects(project_path)`
(spec §4.3) — implementation not under src/. Recomputes group membership
consistency for a project that changed to an explicit version by removing its
path from every group's member list, and reports whether any member list
changed. -/
def update_projects (gs : List GroupInfo) (project_path : String) : List GroupInfo × Bool :=
  let gs1 := gs.map (fun g =>
    { g with projects := g.projects.filter (fun p => p != project_path) })
  (gs1, decide (gs1 ≠ gs))

/-- Modelled from the spec: Group Domain
`update_projects_version(project_path, group_name)` (spec §4.3) —
implementation not under src/. Looks up the named group (`none` when it does
not exist), adds or confirms membership of `project_path`, and returns the
updated draft together with the group's version. -/
def update_projects_version (gs : List GroupInfo) (project_path group_name : String) :
    Option (List GroupInfo × String) :=
  match gs.find? (fun g => g.name == group_name) with
  | none => none
  | some g =>
      some (gs.map (fun h =>
        if h.name == group_name then
          if h.projects.contains project_path then h
          else { h with projects := h.projects ++ [project_path] }
        else h), g.version)

/-- The state touched by the orchestration transactions: the Project and
Group domain stores, the filesystem, and the two persisted document files
written by `save_file()` (modelled from the spec as serializing the persisted
snapshot, infallibly). -/
structure SysState where
  projects : ConfigStore (List Project)
  groups : ConfigStore (List GroupInfo)
  fs : FS
  projectsFile : List Project
  groupsFile : List GroupInfo

/-- `change_with_version(name, version)` from project.rs: mutate the Project
working draft, ask the Group domain whether membership changed, write the
marker file via `sync_project_version`; on success apply-and-save the Project
domain always and the Group domain only when membership changed, on any error
discard both working drafts and propagate the error. -/
def change_with_version (s : SysState) (name version : String) :
    SysState × Except Err Unit :=
  match update_version s.projects.working name version with
  | none =>
      ({ s with projects := s.projects.discard, groups := s.groups.discard },
        Except.error (Err.notFound name))
  | some pr =>
      let s1 : SysState := { s with projects := { s.projects with working := pr.1 } }
      let gr := update_projects s1.groups.working pr.2
      let s2 : SysState := { s1 with groups := { s1.groups with working := gr.1 } }
      match sync_project_version s2.fs pr.2 version with
      | Except.error e =>
          ({ s2 with projects := s2.projects.discard, groups := s2.groups.discard },
            Except.error e)
      | Except.ok r =>
          let s3 : SysState := { s2 with fs := r.1 }
          let s4 : SysState := { s3 with projects := s3.projects.commit }
          let s5 : SysState := { s4 with projectsFile := s4.projects.persisted }
          let s6 : SysState :=
            if gr.2 then
              let sg : SysState := { s5 with groups := s5.groups.commit }
              { sg with groupsFile := sg.groups.persisted }
            else s5
          (s6, Except.ok ())

/-- `change_with_group(name, group_name)` from project.rs: mutate the Project
working draft with the group name, resolve the effective version via the
Group domain (failing when the group does not exist), write the marker file;
on success apply-and-save both domains unconditionally, on any error discard
both working drafts and propagate the error. -/
def change_with_group (s : SysState) (name group_name : String) :
    SysState × Except Err Unit :=
  match update_version s.projects.working name group_name with
  | none =>
      ({ s with projects := s.projects.discard, groups := s.groups.discard },
        Except.error (Err.notFound name))
  | some pr =>
      let s1 : SysState := { s with projects := { s.projects with working := pr.1 } }
      match update_projects_version s1.groups.working pr.2 group_name with
      | none =>
          ({ s1 with projects := s1.projects.discard, groups := s1.groups.discard },
            Except.error (Err.groupNotFound group_name))
      | some gv =>
          let s2 : SysState := { s1 with groups := { s1.groups with working := gv.1 } }
          match sync_project_version s2.fs pr.2 gv.2 with
          | Except.error e =>
              ({ s2 with projects := s2.projects.discard, groups := s2.groups.discard },
                Except.error e)
          | Except.ok r =>
              let s3 : SysState := { s2 with fs := r.1 }
              let s4 : SysState := { s3 with projects := s3.projects.commit }
              let s5 : SysState := { s4 with projectsFile := s4.projects.persisted }
              let s6 : SysState := { s5 with groups := s5.groups.commit }
              let s7 : SysState := { s6 with groupsFile := s6.groups.persisted }
              (s7, Except.ok ())

/-- C1: in `change_with_version`, when the draft mutation succeeds (the
marker write cannot fail: a missing project directory yields the soft 404,
which still commits), the Project domain is applied and saved always and the
Group domain is applied and saved exactly when `update_projects` reported a
change; when any step errors, both working drafts are discarded back to their
persisted snapshots and the error is propagated. -/
theorem c1_change_with_version_transaction (s : SysState) (name version : String) :
    (∀ e, (change_with_version s name version).2 = Except.error e →
        (change_with_version s name version).1.projects.working =
          s.projects.persisted ∧
        (change_with_version s name version).1.groups.working =
          s.groups.persisted) ∧
    (update_version s.projects.working name version = none →
        (change_with_version s name version).2 = Except.error (Err.notFound name)) ∧
    (∀ pr, update_version s.projects.working name version = some pr →
        (change_with_version s name version).2 = Except.ok () ∧
        (change_with_version s name version).1.projects.working = pr.1 ∧
        (change_with_version s name version).1.projects.persisted = pr.1 ∧
        (change_with_version s name version).1.projectsFile = pr.1 ∧
        ((update_projects s.groups.working pr.2).2 = true →
            (change_with_version s name version).1.groups.persisted =
              (update_projects s.groups.working pr.2).1 ∧
            (change_with_version s name version).1.groupsFile =
              (update_projects s.groups.working pr.2).1) ∧
        ((update_projects s.groups.working pr.2).2 = false →
            (change_with_version s name version).1.groups.persisted =
              s.groups.persisted ∧
            (change_with_version s name version).1.groupsFile = s.groupsFile) ∧
        (s.fs.dirExists pr.2 = false →
            (change_with_version s name version).1.fs = s.fs)) := by
  refine ⟨?_, ?_, ?_⟩
  · intro e he
    cases hu : update_version s.projects.working name version with
    | none =>
        simp [change_with_version, hu, ConfigStore.discard]
    | some pr =>
        exfalso
        by_cases hd : s.fs.dirExists pr.2 <;>
          simp [change_with_version, hu, sync_project_version, save_string, hd] at he
  · intro hu
    simp [change_with_version, hu]
  · intro pr hup
    by_cases hd : s.fs.dirExists pr.2 <;>
      by_cases hg : (update_projects s.groups.working pr.2).2 <;>
        simp [change_with_version, hup, sync_project_version, save_string, hd, hg,
          ConfigStore.commit, ConfigStore.discard]

/-- Concrete state for the C1 witness: one project `A` at `pathA` on version
`18.0`, one group `lts` listing `pathA` as member (so switching `A` to an
explicit version changes the member list), the directory `pathA` existing,
and both stores clean (working equals persisted equals the saved file). -/
def sC1 : SysState :=
  { projects := ⟨[⟨"A", "pathA", "18.0"⟩], [⟨"A", "pathA", "18.0"⟩]⟩,
    groups := ⟨[⟨"lts", "20.0", ["pathA"]⟩], [⟨"lts", "20.0", ["pathA"]⟩]⟩,
    fs := { dirs := ["pathA"], markers := fun _ => none },
    projectsFile := [⟨"A", "pathA", "18.0"⟩],
    groupsFile := [⟨"lts", "20.0", ["pathA"]⟩] }

/-- C1 witness: switching project `A` of `sC1` to explicit version `19.0`
succeeds, saves the updated project list, and — since the member list of
`lts` changed — also applies and saves the Group domain. -/
theorem c1_change_with_version_transaction_witness :
    (change_with_version sC1 "A" "19.0").2 = Except.ok () ∧
    (change_with_version sC1 "A" "19.0").1.projectsFile =
      [⟨"A", "pathA", "19.0"⟩] ∧
    (change_with_version sC1 "A" "19.0").1.groupsFile =
      (update_projects sC1.groups.working "pathA").1 := by
  have h := (c1_change_with_version_transaction sC1 "A" "19.0").2.2
      ([⟨"A", "pathA", "19.0"⟩], "pathA") (by decide)
  exact ⟨h.1, h.2.2.2.1, (h.2.2.2.2.1 (by decide)).2⟩

/-- C2: in `change_with_group`, when `update_projects_version` returns `none`
(the named group does not exist) the transaction fails with the
group-not-found error and both working drafts are discarded back to their
persisted snapshots; when every step succeeds, both the Project and the Group
domain are applied and saved unconditionally. -/
theorem c2_change_with_group_transaction (s : SysState) (name group_name : String) :
    ∀ pr, update_version s.projects.working name group_name = some pr →
      (update_projects_version s.groups.working pr.2 group_name = none →
          (change_with_group s name group_name).2 =
            Except.error (Err.groupNotFound group_name) ∧
          (change_with_group s name group_name).1.projects.working =
            s.projects.persisted ∧
          (change_with_group s name group_name).1.groups.working =
            s.groups.persisted) ∧
      (∀ gv, update_projects_version s.groups.working pr.2 group_name = some gv →
          (change_with_group s name group_name).2 = Except.ok () ∧
          (change_with_group s name group_name).1.projects.working = pr.1 ∧
          (change_with_group s name group_name).1.projects.persisted = pr.1 ∧
          (change_with_group s name group_name).1.projectsFile = pr.1 ∧
          (change_with_group s name group_name).1.groups.working = gv.1 ∧
          (change_with_group s name group_name).1.groups.persisted = gv.1 ∧
          (change_with_group s name group_name).1.groupsFile = gv.1) := by
  intro pr hup
  constructor
  · intro hgn
    simp [change_with_group, hup, hgn, ConfigStore.discard]
  · intro gv hgv
    by_cases hd : s.fs.dirExists pr.2 <;>
      simp [change_with_group, hup, hgv, sync_project_version, save_string, hd,
        ConfigStore.commit]

/-- Concrete state for the C2 witness: one project `A` at `pathA`, one group
`lts` with version `20.0` and no members yet, directory `pathA` existing. -/
def sC2 : SysState :=
  { projects := ⟨[⟨"A", "pathA", "18.0"⟩], [⟨"A", "pathA", "18.0"⟩]⟩,
    groups := ⟨[⟨"lts", "20.0", []⟩], [⟨"lts", "20.0", []⟩]⟩,
    fs := { dirs := ["pathA"], markers := fun _ => none },
    projectsFile := [⟨"A", "pathA", "18.0"⟩],
    groupsFile := [⟨"lts", "20.0", []⟩] }

/-- C2 witness: assigning project `A` of `sC2` to existing group `lts`
commits and saves both domains; assigning it to the nonexistent group `nope`
fails with the group-not-found error and leaves both working drafts at their
persisted snapshots. -/
theorem c2_change_with_group_transaction_witness :
    (change_with_group sC2 "A" "lts").2 = Except.ok () ∧
    (change_with_group sC2 "A" "lts").1.groupsFile =
      [⟨"lts", "20.0", ["pathA"]⟩] ∧
    (change_with_group sC2 "A" "nope").2 =
      Except.error (Err.groupNotFound "nope") ∧
    (change_with_group sC2 "A" "nope").1.groups.working = sC2.groups.persisted := by
  have hok := (c2_change_with_group_transaction sC2 "A" "lts"
      ([⟨"A", "pathA", "lts"⟩], "pathA") (by decide)).2
      ([⟨"lts", "20.0", ["pathA"]⟩], "20.0") (by decide)
  have herr := (c2_change_with_group_transaction sC2 "A" "nope"
      ([⟨"A", "pathA", "nope"⟩], "pathA") (by decide)).1 (by decide)
  exact ⟨hok.1, hok.2.2.2.2.2.2, herr.1, herr.2.2⟩

/-- The settings draft read by `install_node` (`Config::settings().latest()`):
mirror URL, install directory, proxy address and no-proxy flag, each
optional as in the Rust `ISettings`. -/
structure ISettings where
  mirror : Option String
  directory : Option String
  proxy : Option String
  no_proxy : Option Bool
deriving DecidableEq, Repr

/-- Outcome of the argument-checking prelude of `install_node`: the command
returns an error string, panics on an `unwrap` of `None`, or reaches
`fetch_native` with the unwrapped version, mirror and directory. -/
inductive InstallOutcome where
  | panicked
  | errored (msg : String)
  | fetched (version mirror directory : String)
deriving DecidableEq, Repr

/-- The prelude of `install_node(window, version)` from cmds.rs: a `None`
version is rejected with `ret_err!("version should not be null")` before the
settings are read; otherwise `settings.mirror.unwrap()` and then
`settings.directory.unwrap()` run, panicking when the respective field is
`None`, and with both present the fetch is reached. The settings draft is
never mutated (the function only clones and reads it). -/
def install_node (version : Option String) (settings : ISettings) : InstallOutcome :=
  match version with
  | none => InstallOutcome.errored "version should not be null"
  | some v =>
      match settings.mirror with
      | none => InstallOutcome.panicked
      | some m =>
          match settings.directory with
          | none => InstallOutcome.panicked
          | some d => InstallOutcome.fetched v m d

/-- C10: `install_node` with a `None` version returns the
"version should not be null" error without touching the settings; with a
`Some` version it panics precisely when the mirror or the directory field of
the settings draft is `None`, so a non-panicking call requires both to be
set, in which case the fetch is reached with the unwrapped values. -/
theorem c10_install_node_null_checks (settings : ISettings) :
    (install_node none settings = InstallOutcome.errored "version should not be null") ∧
    (∀ v, (install_node (some v) settings = InstallOutcome.panicked ↔
        settings.mirror = none ∨ settings.directory = none)) ∧
    (∀ v m d, settings.mirror = some m → settings.directory = some d →
        install_node (some v) settings = InstallOutcome.fetched v m d) := by
  refine ⟨rfl, ?_, ?_⟩
  · intro v
    cases hm : settings.mirror with
    | none => simp [install_node, hm]
    | some m =>
        cases hd : settings.directory with
        | none => simp [install_node, hm, hd]
        | some d => simp [install_node, hm, hd]
  · intro v m d hm hd
    simp [install_node, hm, hd]

/-- C10 witness: with both mirror and directory set the fetch is reached;
with the mirror missing the call panics. -/
theorem c10_install_node_null_checks_witness :
    install_node (some "20.0.0")
        ⟨some "https://npmmirror.com", some "/opt/node", none, none⟩ =
      InstallOutcome.fetched "20.0.0" "https://npmmirror.com" "/opt/node" ∧
    install_node (some "20.0.0") ⟨none, some "/opt/node", none, none⟩ =
      InstallOutcome.panicked :=
  ⟨(c10_install_node_null_checks
      ⟨some "https://npmmirror.com", some "/opt/node", none, none⟩).2.2
      "20.0.0" "https://npmmirror.com" "/opt/node" rfl rfl,
   ((c10_install_node_null_checks ⟨none, some "/opt/node", none, none⟩).2.1
      "20.0.0").mpr (Or.inl rfl)⟩
